import Mathlib

/-!
# Verification of the niko-clip smile-scene pipeline

A shallow embedding, in Lean 4, of the core of the `niko-clip` video
analysis service: the diverse-candidate selector, frame sampler,
task repository, image-result builder and the finalization logic of
`src/backend/routers.py`, `src/backend/services/task_repository.py` and
`src/services/image_service.py`.  Python floats are modelled as rationals
(`ℚ`), Python lists as `List`, dictionaries as association lists, raised
exceptions as `Except` values, and the Redis store plus the scratch file
system as explicitly threaded state.
-/

namespace NikoClip

/-! ## Smile candidates and the diverse-candidate selector
    (`select_diverse_candidates`, src/backend/routers.py lines 35-66) -/
/-- A transient smile candidate (`routers.py` lines 112-118): the dict
`{"smile_score": float, "timestamp": float, "frame": ndarray}`.  The frame
snapshot is modelled as the list of bytes that `cv2.imwrite` writes for it. -/
structure Candidate where
  smile_score : ℚ
  timestamp : ℚ
  frame : List Nat
deriving DecidableEq

/-- A claimed time range `(range_start, range_end)` from `used_time_ranges`. -/
abbrev TimeRange := ℚ × ℚ

/-- The test `start_time <= candidate_time <= end_time` (routers.py line 56). -/
def inRange (t : ℚ) (r : TimeRange) : Prop := r.1 ≤ t ∧ t ≤ r.2

instance (t : ℚ) (r : TimeRange) : Decidable (inRange t r) := by
  unfold inRange; infer_instance

/-- The interval claimed when a candidate is accepted
(`range_start = max(0, candidate_time - time_threshold / 2)`,
`range_end = candidate_time + time_threshold / 2`, routers.py lines 62-63). -/
def claimedRange (time_threshold : ℚ) (c : Candidate) : TimeRange :=
  (max 0 (c.timestamp - time_threshold / 2), c.timestamp + time_threshold / 2)

/-- The membership test of the inner loop (routers.py lines 55-58). -/
def inAnyRange (t : ℚ) (ranges : List TimeRange) : Bool :=
  ranges.any fun r => decide (r.1 ≤ t) && decide (t ≤ r.2)

/-- The main loop of `select_diverse_candidates` (routers.py lines 52-64),
with `used_time_ranges` threaded explicitly.  Accepted candidates are
appended to the result; the claimed range is appended to the used list. -/
def selectGo (time_threshold : ℚ) :
    List TimeRange → List Candidate → List Candidate
  | _, [] => []
  | used_time_ranges, candidate :: rest =>
    if inAnyRange candidate.timestamp used_time_ranges then
      selectGo time_threshold used_time_ranges rest
    else
      candidate ::
        selectGo time_threshold
          (used_time_ranges ++ [claimedRange time_threshold candidate]) rest

/-- Model of `select_diverse_candidates(candidates, time_threshold)`
(src/backend/routers.py lines 35-66).  The Python early return on an empty
list coincides with the base case of the loop. -/
def select_diverse_candidates (candidates : List Candidate)
    (time_threshold : ℚ) : List Candidate :=
  selectGo time_threshold [] candidates

/-! ## The stable score-descending sort
    (`smile_candidates.sort(key=..., reverse=True)`, routers.py line 173).
    Python's `list.sort` is stable; a stable sort by one key is uniquely
    determined by (permutation, sortedness, key-fibre preservation), all
    three of which are proved below, so any stable descending sort models
    it.  We use insertion sort. -/
/-- Insert a candidate after every strictly higher-scoring one. -/
def insertDesc (c : Candidate) : List Candidate → List Candidate
  | [] => [c]
  | d :: ds =>
    if c.smile_score < d.smile_score then d :: insertDesc c ds
    else c :: d :: ds

/-- The stable sort by `smile_score` descending. -/
def sortByScoreDesc (candidates : List Candidate) : List Candidate :=
  candidates.foldr insertDesc []

/-- The composite `top_smiles = select_diverse_candidates(sorted candidates, 1.0)` as in
`_finalize_smile_results` (routers.py lines 173-174), generalized over the
threshold. -/
def top_smiles (candidates : List Candidate) (time_threshold : ℚ) :
    List Candidate :=
  select_diverse_candidates (sortByScoreDesc candidates) time_threshold

/-- Descending order on scores. -/
def ScoreSortedDesc (l : List Candidate) : Prop :=
  l.Pairwise fun a b => b.smile_score ≤ a.smile_score

/-- A low-scoring candidate at time 0 (frame payload irrelevant). -/
def lowScoreEarly : Candidate := ⟨1/10, 0, []⟩

/-- A high-scoring candidate at time 5. -/
def highScoreLate : Candidate := ⟨9/10, 5, []⟩

/-! ## The frame sampler (`_compute_frame_skip`, routers.py lines 69-73) -/
/-- Python `int(x)` applied to a float: truncation toward zero. -/
def pyInt (q : ℚ) : Int := if 0 ≤ q then ⌊q⌋ else ⌈q⌉

/-- Model of `_compute_frame_skip(fps)` (routers.py lines 69-73).  The configured
`config.FRAME_SAMPLE_INTERVAL_SECONDS` is passed explicitly as
`interval_setting` (it is an environment-derived configuration value). -/
def _compute_frame_skip (fps interval_setting : ℚ) : Int :=
  let interval_seconds := max interval_setting 0
  if interval_seconds = 0 then 1
  else max 1 (pyInt (fps * interval_seconds))

/-- The fps substitution of `process_video_task` (routers.py lines 231-233):
`if fps == 0: fps = 30`. -/
def effective_fps (fps : ℚ) : ℚ := if fps = 0 then 30 else fps

/-! ## The image service (src/services/image_service.py) -/
/-- Model of `ImageProcessingError` and its subclasses (image_service.py lines 16-49),
identified by their `error_code` field: `"IMAGE_VALIDATION_ERROR"` for
`ImageValidationError`, `"BASE64_ENCODING_ERROR"` for `Base64EncodingError`,
`"IMAGE_SIZE_ERROR"` for `ImageSizeError`, and the codes
`"FALLBACK_FAILED"` / `"ALL_FALLBACKS_FAILED"` used by the builder. -/
structure ImageProcessingError where
  message : String
  error_code : String
deriving DecidableEq

/-- The scratch file system: an association list from path to content bytes;
a missing key is a missing file. -/
abbrev FileSys := List (String × List Nat)

/-- Association-list lookup, leftmost binding first. -/
def alookup {β : Type} (k : String) : List (String × β) → Option β
  | [] => none
  | (k1, v) :: rest => if k1 = k then some v else alookup k rest

/-- ASCII lower-casing of one character (Python `str.lower()`). -/
def lowerChar (ch : Char) : Char :=
  if 'A' ≤ ch ∧ ch ≤ 'Z' then Char.ofNat (ch.toNat + 32) else ch

/-- ASCII lower-casing of a string (Python `str.lower()`). -/
def lowerString (s : String) : String := String.mk (s.toList.map lowerChar)

/-- Helper for `pathSuffix`: walk the reversed character list, accumulating
the extension until the last dot; a dot that starts the file name (hidden
files) or a path separator reached first yields no suffix. -/
def revSuffix : List Char → List Char → String
  | [], _ => ""
  | '.' :: rest, acc =>
    match rest with
    | [] => ""
    | '/' :: _ => ""
    | _ => String.mk ('.' :: acc)
  | '/' :: _, _ => ""
  | ch :: rest, acc => revSuffix rest (ch :: acc)

/-- Model of `pathlib.Path(p).suffix`: the final extension (with its dot) of the last
path component, empty for names with no dot or a leading dot only. -/
def pathSuffix (p : String) : String := revSuffix p.toList.reverse []

/-- The supported extensions of `validate_image_file`
(image_service.py line 307). -/
def supported_extensions : List String :=
  [".jpg", ".jpeg", ".png", ".gif", ".bmp", ".webp"]

/-- Model of `ImageService.validate_image_file` (image_service.py lines 291-327):
exists, supported (lower-cased) extension, non-zero size, readable.  In the
model a file that exists is readable, so the final 10-byte probe succeeds. -/
def validate_image_file (fs : FileSys) (image_path : String) : Bool :=
  match alookup image_path fs with
  | none => false
  | some bytes =>
    if ¬ supported_extensions.contains (lowerString (pathSuffix image_path))
      then false
    else if bytes.length = 0 then false
    else true

/-- Model of `config.MAX_BASE64_IMAGE_SIZE_MB` (src/backend/config.py line 36),
at its default of 5. -/
def MAX_BASE64_IMAGE_SIZE_MB : ℚ := 5

/-- Model of `ImageService.get_image_size_mb` (image_service.py lines 98-116):
`st_size / (1024 * 1024)`. -/
def get_image_size_mb (bytes : List Nat) : ℚ :=
  (bytes.length : ℚ) / (1024 * 1024)

/-- The decision dict returned by `should_use_base64`
(image_service.py lines 138-143). -/
structure Base64Decision where
  use_base64 : Bool
  reason : String
  file_size_mb : ℚ
  error : Option String
deriving DecidableEq

/-- Model of `ImageService.should_use_base64` (image_service.py lines 118-182).
The defensive `except` arm (reason `"error_checking_file"`) corresponds to
the unreachable case of a file that validates but cannot be inspected. -/
def should_use_base64 (fs : FileSys) (image_path : String)
    (force_fallback : Bool) : Base64Decision :=
  if validate_image_file fs image_path then
    match alookup image_path fs with
    | none =>
      { use_base64 := false, reason := "error_checking_file",
        file_size_mb := 0,
        error := some ("Error checking image " ++ image_path) }
    | some bytes =>
      let size_mb := get_image_size_mb bytes
      if force_fallback then
        { use_base64 := false, reason := "forced_fallback",
          file_size_mb := size_mb, error := none }
      else if MAX_BASE64_IMAGE_SIZE_MB < size_mb then
        { use_base64 := false, reason := "size_limit_exceeded",
          file_size_mb := size_mb, error := none }
      else
        { use_base64 := true, reason := "size_within_limits",
          file_size_mb := size_mb, error := none }
  else
    { use_base64 := false, reason := "invalid_file", file_size_mb := 0,
      error := some ("Image file " ++ image_path ++
        " is not valid or accessible") }

/-- The base64 alphabet. -/
def base64Chars : List Char :=
  "ABCDEFGHIJKLMNOPQRSTUVWXYZabcdefghijklmnopqrstuvwxyz0123456789+/".toList

/-- The base64 digit for a 6-bit value. -/
def b64Char (n : Nat) : Char := base64Chars.getD n 'A'

/-- Standard base64 of a byte list (`base64.b64encode`), with padding. -/
def base64Encode : List Nat → String
  | [] => ""
  | [b1] =>
    let n := (b1 % 256) * 65536
    String.mk [b64Char (n / 262144 % 64), b64Char (n / 4096 % 64), '=', '=']
  | [b1, b2] =>
    let n := (b1 % 256) * 65536 + (b2 % 256) * 256
    String.mk [b64Char (n / 262144 % 64), b64Char (n / 4096 % 64),
      b64Char (n / 64 % 64), '=']
  | b1 :: b2 :: b3 :: rest =>
    let n := (b1 % 256) * 65536 + (b2 % 256) * 256 + (b3 % 256)
    String.mk [b64Char (n / 262144 % 64), b64Char (n / 4096 % 64),
      b64Char (n / 64 % 64), b64Char (n % 64)] ++ base64Encode rest

/-- The extension-to-MIME map of `encode_image_to_base64`
(image_service.py lines 76-83). -/
def mime_type_map : List (String × String) :=
  [(".jpg", "image/jpeg"), (".jpeg", "image/jpeg"), (".png", "image/png"),
   (".gif", "image/gif"), (".bmp", "image/bmp"), (".webp", "image/webp")]

/-- Model of `ImageService.encode_image_to_base64` (image_service.py lines 55-96).
The error case is the `FileNotFoundError` message; the
`Base64EncodingError` wrapper has no trigger in a deterministic file
system, since reading an existing file always succeeds. -/
def encode_image_to_base64 (fs : FileSys) (image_path : String) :
    Except String String :=
  match alookup image_path fs with
  | none => .error ("Image file not found: " ++ image_path)
  | some bytes =>
    let extension := lowerString (pathSuffix image_path)
    let mime_type := (alookup extension mime_type_map).getD "image/jpeg"
    .ok ("data:" ++ mime_type ++ ";base64," ++ base64Encode bytes)

/-- Model of `TaskResult` (src/backend/schemas.py lines 12-27). -/
structure TaskResult where
  timestamp : String
  score : ℚ
  image_data : String
deriving DecidableEq

/-- Model of `"; ".join(fallback_attempts)`. -/
def joinSemicolon : List String → String
  | [] => ""
  | [s] => s
  | s :: rest => s ++ "; " ++ joinSemicolon rest

/-- The terminal failure of `create_task_result_with_fallback`
(image_service.py lines 238-267): the unimplemented URL fallback raises
`ImageProcessingError(..., "FALLBACK_FAILED")`, which is caught and appended
to the attempts, after which the aggregated `"ALL_FALLBACKS_FAILED"` error
is raised. -/
def all_fallbacks_failed (image_path : String)
    (fallback_attempts : List String) : ImageProcessingError :=
  let fallback_failed_message :=
    "Cannot create TaskResult for " ++ image_path ++
      ". Base64 encoding failed and URL fallback not implemented. Details: "
      ++ joinSemicolon fallback_attempts
  let attempts :=
    fallback_attempts ++ ["URL fallback failed: " ++ fallback_failed_message]
  { message := "All fallback attempts failed for " ++ image_path ++ ": " ++
      joinSemicolon attempts,
    error_code := "ALL_FALLBACKS_FAILED" }

/-- Model of `ImageService.create_task_result_with_fallback`
(image_service.py lines 184-267).  The `task_id` argument only feeds the
unimplemented URL fallback and is dropped.  A successful base64 pass
returns immediately; every other path reaches the terminal
`ALL_FALLBACKS_FAILED` error. -/
def create_task_result_with_fallback (fs : FileSys) (image_path : String)
    (timestamp : String) (score : ℚ) : Except ImageProcessingError TaskResult :=
  let base64_decision := should_use_base64 fs image_path false
  if base64_decision.use_base64 then
    match encode_image_to_base64 fs image_path with
    | .ok image_data =>
      .ok { timestamp := timestamp, score := score, image_data := image_data }
    | .error msg =>
      .error (all_fallbacks_failed image_path
        ["Base64 processing error: " ++ msg])
  else
    .error (all_fallbacks_failed image_path
      ["Base64 not suitable: " ++ base64_decision.reason])

/-- The error code of a builder outcome (`None` on success). -/
def errCode : Except ImageProcessingError TaskResult → Option String
  | .error e => some e.error_code
  | .ok _ => none

/-! ## Per-candidate result creation (`_create_task_result`,
    routers.py lines 123-159) -/
/-- Rounding to an integer with ties to even, as Python float formatting
does (the model works on exact rationals). -/
def pyRoundHalfEven (q : ℚ) : Int :=
  let fl := ⌊q⌋
  if q - fl < 1/2 then fl
  else if 1/2 < q - fl then fl + 1
  else if fl % 2 = 0 then fl else fl + 1

/-- Two-digit zero-padded decimal. -/
def pad2 (n : Nat) : String := if n < 10 then "0" ++ toString n else toString n

/-- Python `f"{q:.2f}"`: fixed-point with two decimals. -/
def format2f (q : ℚ) : String :=
  let cents := pyRoundHalfEven (q * 100)
  let n := cents.natAbs
  (if cents < 0 then "-" else "") ++ toString (n / 100) ++ "." ++ pad2 (n % 100)

/-- The file name `f"scene_{index + 1}.jpg"` (routers.py line 126). -/
def scene_filename (index : Nat) : String :=
  "scene_" ++ toString (index + 1) ++ ".jpg"

/-- The scratch path `f"temp_{task_id}_{image_filename}"`
(routers.py line 128). -/
def temp_image_path (task_id image_filename : String) : String :=
  "temp_" ++ task_id ++ "_" ++ image_filename

/-- Writing a file (`cv2.imwrite`): replace the binding or append it. -/
def fsWrite : FileSys → String → List Nat → FileSys
  | [], p, b => [(p, b)]
  | (q, v) :: rest, p, b =>
    if q = p then (q, b) :: rest else (q, v) :: fsWrite rest p b

/-- Deleting a file if it exists (`Path.unlink` guarded by `exists`). -/
def fsDelete (fs : FileSys) (p : String) : FileSys :=
  fs.filter fun e => decide (e.1 ≠ p)

/-- Model of `_create_task_result` (routers.py lines 123-159): write the
frame bytes to the scratch path, run the builder, catch any raised
exception (the candidate is logged and dropped, giving `None`), and always
unlink the scratch file in the `finally` block. -/
def _create_task_result (fs : FileSys) (task_id : String)
    (candidate : Candidate) (index : Nat) : Option TaskResult × FileSys :=
  let image_filename := scene_filename index
  let timestamp_str := format2f candidate.timestamp ++ "s"
  let temp := temp_image_path task_id image_filename
  let fs1 := fsWrite fs temp candidate.frame
  let result := create_task_result_with_fallback fs1 temp timestamp_str
    candidate.smile_score
  let fs2 := fsDelete fs1 temp
  match result with
  | .ok task_result => (some task_result, fs2)
  | .error _ => (none, fs2)

/-- The result-accumulation loop of `_finalize_smile_results`
(routers.py lines 176-181): build each selected candidate's result, keep
the successes in order. -/
def build_final_results (task_id : String) :
    FileSys → List Candidate → Nat → List TaskResult × FileSys
  | fs, [], _ => ([], fs)
  | fs, candidate :: rest, index =>
    match _create_task_result fs task_id candidate index with
    | (some task_result, fs1) =>
      let out := build_final_results task_id fs1 rest (index + 1)
      (task_result :: out.1, out.2)
    | (none, fs1) => build_final_results task_id fs1 rest (index + 1)

/-- A candidate whose frame has no bytes: its scratch file has size zero,
so the builder fails and the candidate is dropped. -/
def badCandidate : Candidate := ⟨9/10, 2, []⟩

/-- A candidate with a one-byte frame: its result builds successfully. -/
def goodCandidate : Candidate := ⟨4/5, 4, [77]⟩

/-- The result built for `goodCandidate` at index 0. -/
def goodResult : TaskResult := ⟨"4.00s", 4/5, "data:image/jpeg;base64,TQ=="⟩

/-! ## The task repository
    (src/backend/services/task_repository.py, over Redis) -/
/-- A value stored in a Redis hash field.  Redis with
`decode_responses=True` stores strings; each constructor stands for the
string Python writes for the corresponding typed value: `.str s` for `s`
itself, `.int n` for `str(n)`, `.num q` for `str(float)` (floats modelled
as rationals), and `.results rs` for
`json.dumps([r.dict() for r in rs])`.  The read-side coercions `int(·)`,
`float(·)` and `json.loads(·)` succeed exactly on the corresponding
constructors; numeric text smuggled through `.str` is not modelled because
nothing in the pipeline produces it. -/
inductive WVal
  | str (s : String)
  | int (n : Int)
  | num (q : ℚ)
  | results (rs : List TaskResult)
deriving DecidableEq

/-- A field value of the dict returned by `get_task`: either a raw string
or one of the read-side coerced typed values. -/
inductive PVal
  | str (s : String)
  | int (n : Int)
  | num (q : ℚ)
  | results (rs : List TaskResult)
deriving DecidableEq

/-- Comma-separated join, as `json.dumps` renders list items. -/
def joinComma : List String → String
  | [] => ""
  | [s] => s
  | s :: rest => s ++ ", " ++ joinComma rest

/-- A JSON string literal.  The payloads the pipeline serializes (data
URIs, formatted timestamps, file names) contain no characters that JSON
escapes, so plain quoting is exact for them. -/
def jsonString (s : String) : String := "\"" ++ s ++ "\""

/-- Decimal text of the rational standing for a Python float.  The exact
digit string of Python float repr is not observed by any claim; only
nonemptiness and the typed round-trip are. -/
def ratText (q : ℚ) : String := toString q

/-- Serialization of one `TaskResult` dict by `json.dumps`. -/
def jsonTaskResult (r : TaskResult) : String :=
  "\x7b" ++ jsonString "timestamp" ++ ": " ++ jsonString r.timestamp ++ ", "
    ++ jsonString "score" ++ ": " ++ ratText r.score ++ ", "
    ++ jsonString "image_data" ++ ": " ++ jsonString r.image_data ++ "\x7d"

/-- Serialization of the results list by `json.dumps`. -/
def jsonResults (rs : List TaskResult) : String :=
  "[" ++ joinComma (rs.map jsonTaskResult) ++ "]"

/-- The string a wire value stands for on the wire. -/
def WVal.text : WVal → String
  | .str s => s
  | .int n => toString n
  | .num q => ratText q
  | .results rs => jsonResults rs

/-- Python truthiness of the stored string (`if results_raw:`,
task_repository.py line 63).  A serialized results list is never the empty
string (`json.dumps` yields at least `"[]"`). -/
def WVal.truthy : WVal → Bool
  | .str s => !s.isEmpty
  | .int n => decide (n ≠ 0)
  | .num q => decide (q ≠ 0)
  | .results _ => true

/-- One Redis hash: field/value pairs in insertion order. -/
abbrev RedisHash := List (String × WVal)

/-- One stored key: its hash and an optional absolute expiry instant. -/
structure RedisEntry where
  hash : RedisHash
  expire_at : Option ℚ
deriving DecidableEq

/-- The Redis store: entries keyed by name, plus the current time. -/
structure RedisState where
  entries : List (String × RedisEntry)
  now : ℚ
deriving DecidableEq

/-- A key's hash when the key is live.  Redis expires keys lazily, so a key
past its expiry behaves exactly like an absent one. -/
def RedisState.live (st : RedisState) (key : String) : Option RedisHash :=
  match alookup key st.entries with
  | none => none
  | some e =>
    match e.expire_at with
    | none => some e.hash
    | some t => if st.now < t then some e.hash else none

/-- Setting one hash field: update it in place or append it. -/
def hashSet : RedisHash → String → WVal → RedisHash
  | [], k, v => [(k, v)]
  | (k1, v1) :: rest, k, v =>
    if k1 = k then (k1, v) :: rest else (k1, v1) :: hashSet rest k v

/-- The `HSET key mapping` merge, fields applied left to right. -/
def hashSetMany (h : RedisHash) (mapping : List (String × WVal)) : RedisHash :=
  mapping.foldl (fun acc kv => hashSet acc kv.1 kv.2) h

/-- Replacement of the entry stored under a key. -/
def setEntry : List (String × RedisEntry) → String → RedisEntry →
    List (String × RedisEntry)
  | [], k, e => [(k, e)]
  | (k1, e1) :: rest, k, e =>
    if k1 = k then (k1, e) :: rest else (k1, e1) :: setEntry rest k e

/-- The `HSET` command on a whole key: merge into a live key's hash keeping
its TTL; on an absent (or expired, hence lazily deleted) key, create a
fresh entry with no TTL. -/
def RedisState.hset (st : RedisState) (key : String)
    (mapping : List (String × WVal)) : RedisState :=
  match st.live key with
  | some h =>
    match alookup key st.entries with
    | some e =>
      { st with entries :=
          setEntry st.entries key ⟨hashSetMany h mapping, e.expire_at⟩ }
    | none => st
  | none =>
    { st with entries :=
        (st.entries.filter fun e => decide (e.1 ≠ key)) ++
          [(key, ⟨hashSetMany [] mapping, none⟩)] }

/-- The `EXPIRE key ttl` command: set a live key's expiry `ttl` from now;
no effect on an absent key. -/
def RedisState.expire (st : RedisState) (key : String) (ttl : ℚ) :
    RedisState :=
  match st.live key with
  | some _ =>
    match alookup key st.entries with
    | some e =>
      { st with entries :=
          setEntry st.entries key ⟨e.hash, some (st.now + ttl)⟩ }
    | none => st
  | none => st

/-- The `EXISTS key` command. -/
def RedisState.existsKey (st : RedisState) (key : String) : Bool :=
  (st.live key).isSome

/-- The `HGETALL key` command (empty dict on a missing key). -/
def RedisState.hgetall (st : RedisState) (key : String) : RedisHash :=
  (st.live key).getD []

/-- The `DEL key` command. -/
def RedisState.del (st : RedisState) (key : String) : RedisState :=
  { st with entries := st.entries.filter fun e => decide (e.1 ≠ key) }

/-- The key scheme `f"tasks:{task_id}"` (task_repository.py lines 79-81). -/
def task_key (task_id : String) : String := "tasks:" ++ task_id

/-- Model of `config.REDIS_TASK_TTL_SECONDS` at its default (86400). -/
def REDIS_TASK_TTL_SECONDS : ℚ := 86400

/-- The repository's raised errors: `TaskNotFoundError(task_id)`, plus the
`ValueError` a failing read-side coercion would raise. -/
inductive RepoError
  | taskNotFound (task_id : String)
  | valueError
deriving DecidableEq

/-- Model of `TaskRepository.create_task` (task_repository.py lines 30-37):
pipeline of `hset {"status": "processing", **payload}` and `expire ttl`. -/
def create_task (st : RedisState) (task_id : String)
    (payload : List (String × WVal)) : RedisState :=
  let data := ("status", WVal.str "processing") :: payload
  (st.hset (task_key task_id) data).expire (task_key task_id)
    REDIS_TASK_TTL_SECONDS

/-- Model of `TaskRepository.update_task` (lines 39-45):
`TaskNotFoundError` when the key does not exist, otherwise merge. -/
def update_task (st : RedisState) (task_id : String)
    (payload : List (String × WVal)) : Except RepoError RedisState :=
  if st.existsKey (task_key task_id) then
    .ok (st.hset (task_key task_id) payload)
  else
    .error (.taskNotFound task_id)

/-- Model of `TaskRepository.append_task_results` (lines 47-53):
`TaskNotFoundError` when the key does not exist, otherwise store the
serialized results under the `results` field. -/
def append_task_results (st : RedisState) (task_id : String)
    (results : List TaskResult) : Except RepoError RedisState :=
  if st.existsKey (task_key task_id) then
    .ok (st.hset (task_key task_id) [("results", WVal.results results)])
  else
    .error (.taskNotFound task_id)

/-- The read-side coercions of `get_task` (lines 62-70): `results` is
JSON-parsed when its stored string is truthy, `progress` goes through
`int(·)`, `created_at` through `float(·)`; all other fields stay strings. -/
def coerceField : String × WVal → Except RepoError (String × PVal)
  | (k, v) =>
    if k = "results" then
      if v.truthy then
        match v with
        | .results rs => .ok (k, .results rs)
        | _ => .error .valueError
      else .ok (k, .str v.text)
    else if k = "progress" then
      match v with
      | .int n => .ok (k, .int n)
      | _ => .error .valueError
    else if k = "created_at" then
      match v with
      | .int n => .ok (k, .num (n : ℚ))
      | .num q => .ok (k, .num q)
      | _ => .error .valueError
    else .ok (k, .str v.text)

/-- The sequential application of the read-side coercions to every field,
stopping at the first raised error. -/
def coerceFields : List (String × WVal) →
    Except RepoError (List (String × PVal))
  | [] => .ok []
  | kv :: rest =>
    match coerceField kv with
    | .error e => .error e
    | .ok pv =>
      match coerceFields rest with
      | .error e => .error e
      | .ok pvs => .ok (pv :: pvs)

/-- Model of `TaskRepository.get_task` (lines 55-72): empty `hgetall` means
`TaskNotFoundError`; otherwise each field is returned with its coercion. -/
def get_task (st : RedisState) (task_id : String) :
    Except RepoError (List (String × PVal)) :=
  let data := st.hgetall (task_key task_id)
  if data.isEmpty then .error (.taskNotFound task_id)
  else coerceFields data

/-- Model of `TaskRepository.delete_task` (lines 74-77). -/
def delete_task (st : RedisState) (task_id : String) : RedisState :=
  st.del (task_key task_id)

/-- A store holding one live task record (no TTL) under id `"w7"`. -/
def c7State : RedisState :=
  ⟨[("tasks:w7", ⟨[("status", WVal.str "processing")], none⟩)], 0⟩

/-- Boolean success test on an `Except` outcome. -/
def exceptIsOk {ε α : Type} : Except ε α → Bool
  | .ok _ => true
  | .error _ => false

/-- The state after creating task `"t8"` on an empty store at time 0. -/
def c8St1 : RedisState :=
  create_task ⟨[], 0⟩ "t8"
    [("filename", WVal.str "a.mp4"), ("progress", WVal.int 0),
     ("created_at", WVal.num 0)]

/-- The same state read at the creation instant (no time has passed). -/
def c8St2 : RedisState := ⟨c8St1.entries, c8St1.now + 0⟩

/-! ## The orchestrator (`process_video_task`, routers.py lines 76-266) -/
/-- Model of `_update_task_progress` (routers.py lines 76-88): no-op success
when `total_frames <= 0`, otherwise write
`int(frame_number / total_frames * 100)`; a `TaskNotFoundError` is caught
and reported as `False` (cooperative cancellation). -/
def _update_task_progress (st : RedisState) (task_id : String)
    (frame_number total_frames : Int) : RedisState × Bool :=
  if total_frames ≤ 0 then (st, true)
  else
    let progress := pyInt ((frame_number : ℚ) / (total_frames : ℚ) * 100)
    match update_task st task_id [("progress", WVal.int progress)] with
    | .ok st1 => (st1, true)
    | .error _ => (st, false)

/-- Model of `_finalize_smile_results` (routers.py lines 162-192), threading
the Redis state and the scratch file system.  With no candidates: store
empty results, then mark the task complete -- and nothing else.  Otherwise:
sort, select with threshold 1.0, build the results, store them and mark the
task complete with progress 100.  A `TaskNotFoundError` from a store
operation is caught and skips the remaining operations. -/
def _finalize_smile_results (st : RedisState) (fs : FileSys)
    (task_id : String) (smile_candidates : List Candidate) :
    RedisState × FileSys :=
  if smile_candidates.isEmpty then
    match append_task_results st task_id [] with
    | .error _ => (st, fs)
    | .ok st1 =>
      match update_task st1 task_id [("status", WVal.str "complete")] with
      | .error _ => (st1, fs)
      | .ok st2 => (st2, fs)
  else
    let top := select_diverse_candidates (sortByScoreDesc smile_candidates) 1
    let built := build_final_results task_id fs top 0
    match append_task_results st task_id built.1 with
    | .error _ => (st, built.2)
    | .ok st1 =>
      match update_task st1 task_id
        [("status", WVal.str "complete"), ("progress", WVal.int 100)] with
      | .error _ => (st1, built.2)
      | .ok st2 => (st2, built.2)

/-- The per-frame loop of `process_video_task` (routers.py lines 240-257):
one progress update per grabbed frame, early exit when the update reports
the task gone, candidate extraction (through the oracle `extract`, which
abstracts `_extract_smile_candidates` and the neural models) on every
`frame_skip`-th frame.  `frames_left` is the number of frames the capture
still delivers. -/
def video_loop (task_id : String) (total_frames frame_skip : Int)
    (extract : Int → List Candidate) :
    RedisState → Nat → Int → List Candidate →
      RedisState × List Candidate × Bool
  | st, 0, _, acc => (st, acc, true)
  | st, frames_left + 1, frame_number, acc =>
    let step := _update_task_progress st task_id frame_number total_frames
    if step.2 then
      video_loop task_id total_frames frame_skip extract step.1 frames_left
        (frame_number + 1)
        (if frame_number % frame_skip = 0 then acc ++ extract frame_number
         else acc)
    else (step.1, acc, false)

/-- Model of `process_video_task` (routers.py lines 215-266) for a readable
video delivering `nframes` frames: substitute fps 30 when the source
reports 0, compute the frame skip, run the per-frame loop, and finalize
unless the loop exited early because the task disappeared.  Video decoding,
the handle release and the upload-file cleanup are I/O outside the tracked
state. -/
def process_video_task (st : RedisState) (fs : FileSys) (task_id : String)
    (total_frames : Int) (nframes : Nat) (fps interval_setting : ℚ)
    (extract : Int → List Candidate) : RedisState × FileSys :=
  let frame_skip := _compute_frame_skip (effective_fps fps) interval_setting
  match video_loop task_id total_frames frame_skip extract st nframes 0 [] with
  | (st1, candidates, true) => _finalize_smile_results st1 fs task_id candidates
  | (st1, _, false) => (st1, fs)

/-! ### C4: the zero-face run, evaluated -/
/-- The single task record of the C4 run, as stored with its TTL. -/
def c4Entries (h : RedisHash) : List (String × RedisEntry) :=
  [("tasks:vid", ⟨h, some ((0 : ℚ) + REDIS_TASK_TTL_SECONDS)⟩)]

/-- The record's hash while processing, parameterized by progress. -/
def c4Hash (pr : Int) : RedisHash :=
  [("status", WVal.str "processing"), ("filename", WVal.str "v.mp4"),
   ("progress", WVal.int pr), ("created_at", WVal.num 0)]

/-- The record's hash after the empty finalization: complete, progress
still 50, empty results. -/
def c4FinalHash : RedisHash :=
  [("status", WVal.str "complete"), ("filename", WVal.str "v.mp4"),
   ("progress", WVal.int 50), ("created_at", WVal.num 0),
   ("results", WVal.results [])]

/-- The store right after `create_task` on an empty store at time 0. -/
def c4Created : RedisState :=
  create_task ⟨[], 0⟩ "vid"
    [("filename", WVal.str "v.mp4"), ("progress", WVal.int 0),
     ("created_at", WVal.num 0)]

/-- The store after the zero-face run. -/
def c4Final : RedisState := ⟨c4Entries c4FinalHash, 0⟩

/-! ### Facts about the sort -/
theorem insertDesc_perm (c : Candidate) (l : List Candidate) :
    (insertDesc c l).Perm (c :: l) := by
  induction l with
  | nil => simp [insertDesc]
  | cons d ds ih =>
    by_cases h : c.smile_score < d.smile_score
    · simpa [insertDesc, h] using ((ih.cons d).trans (List.Perm.swap c d ds))
    · simp [insertDesc, h]

theorem sortByScoreDesc_perm (l : List Candidate) :
    (sortByScoreDesc l).Perm l := by
  induction l with
  | nil => simp [sortByScoreDesc]
  | cons c cs ih =>
    have h1 : (sortByScoreDesc (c :: cs)).Perm (c :: sortByScoreDesc cs) :=
      insertDesc_perm c (sortByScoreDesc cs)
    exact h1.trans (ih.cons c)

theorem mem_insertDesc {x c : Candidate} {l : List Candidate} :
    x ∈ insertDesc c l ↔ x = c ∨ x ∈ l := by
  rw [(insertDesc_perm c l).mem_iff]
  simp

theorem insertDesc_sorted {c : Candidate} {l : List Candidate}
    (hl : ScoreSortedDesc l) : ScoreSortedDesc (insertDesc c l) := by
  unfold ScoreSortedDesc at *
  induction l with
  | nil => simp [insertDesc]
  | cons d ds ih =>
    rcases List.pairwise_cons.mp hl with ⟨hd, hds⟩
    by_cases h : c.smile_score < d.smile_score
    · have htail := ih hds
      rw [insertDesc, if_pos h]
      refine List.pairwise_cons.mpr ⟨?_, htail⟩
      intro x hx
      rcases mem_insertDesc.mp hx with rfl | hx
      · exact le_of_lt h
      · exact hd x hx
    · rw [insertDesc, if_neg h]
      refine List.pairwise_cons.mpr ⟨?_, List.pairwise_cons.mpr ⟨hd, hds⟩⟩
      intro x hx
      rcases List.mem_cons.mp hx with rfl | hx
      · exact not_lt.mp h
      · exact le_trans (hd x hx) (not_lt.mp h)

theorem sortByScoreDesc_sorted (l : List Candidate) :
    ScoreSortedDesc (sortByScoreDesc l) := by
  induction l with
  | nil => simp [sortByScoreDesc, ScoreSortedDesc]
  | cons c cs ih => exact insertDesc_sorted ih

/-- Stability of the insertion: the fibre of each score is preserved. -/
theorem filter_insertDesc (c : Candidate) (l : List Candidate) (s : ℚ) :
    (insertDesc c l).filter (fun d => decide (d.smile_score = s)) =
      (c :: l).filter (fun d => decide (d.smile_score = s)) := by
  induction l with
  | nil => simp [insertDesc]
  | cons d ds ih =>
    by_cases h : c.smile_score < d.smile_score
    · by_cases hc : c.smile_score = s
      · have hd : ¬ d.smile_score = s := by
          intro hds; rw [hc] at h; rw [hds] at h; exact lt_irrefl s h
        rw [insertDesc, if_pos h]
        simp only [List.filter_cons, ih] at *
        simp [hc, hd]
      · rw [insertDesc, if_pos h]
        simp only [List.filter_cons, ih] at *
        by_cases hd : d.smile_score = s <;> simp [hc, hd]
    · rw [insertDesc, if_neg h]

theorem sortByScoreDesc_stable (l : List Candidate) (s : ℚ) :
    (sortByScoreDesc l).filter (fun d => decide (d.smile_score = s)) =
      l.filter (fun d => decide (d.smile_score = s)) := by
  induction l with
  | nil => rfl
  | cons c cs ih =>
    calc (sortByScoreDesc (c :: cs)).filter (fun d => decide (d.smile_score = s))
        = (c :: sortByScoreDesc cs).filter
            (fun d => decide (d.smile_score = s)) :=
          filter_insertDesc c (sortByScoreDesc cs) s
      _ = (c :: cs).filter (fun d => decide (d.smile_score = s)) := by
          simp only [List.filter_cons]
          rw [ih]

/-! ### Facts about the greedy walk -/
theorem inAnyRange_eq_true_iff (t : ℚ) (rs : List TimeRange) :
    inAnyRange t rs = true ↔ ∃ r ∈ rs, inRange t r := by
  simp [inAnyRange, inRange, List.any_eq_true]

theorem inAnyRange_eq_false_iff (t : ℚ) (rs : List TimeRange) :
    inAnyRange t rs = false ↔ ∀ r ∈ rs, ¬ inRange t r := by
  rw [← Bool.not_eq_true, inAnyRange_eq_true_iff]
  push_neg
  rfl

theorem selectGo_cons_hit {time_threshold : ℚ} {used : List TimeRange}
    {c : Candidate} {l : List Candidate}
    (h : inAnyRange c.timestamp used = true) :
    selectGo time_threshold used (c :: l) = selectGo time_threshold used l := by
  simp [selectGo, h]

theorem selectGo_cons_free {time_threshold : ℚ} {used : List TimeRange}
    {c : Candidate} {l : List Candidate}
    (h : inAnyRange c.timestamp used = false) :
    selectGo time_threshold used (c :: l) =
      c :: selectGo time_threshold (used ++ [claimedRange time_threshold c]) l := by
  simp [selectGo, h]

/-- Everything the loop outputs avoids every range that was already claimed
when the loop started. -/
theorem selectGo_avoid (time_threshold : ℚ) :
    ∀ (l : List Candidate) (used : List TimeRange),
      ∀ y ∈ selectGo time_threshold used l, ∀ r ∈ used, ¬ inRange y.timestamp r := by
  intro l
  induction l with
  | nil => intro used y hy; simp [selectGo] at hy
  | cons c rest ih =>
    intro used y hy r hr
    by_cases h : inAnyRange c.timestamp used = true
    · rw [selectGo_cons_hit h] at hy
      exact ih used y hy r hr
    · rw [Bool.not_eq_true] at h
      rw [selectGo_cons_free h] at hy
      rcases List.mem_cons.mp hy with rfl | hy
      · exact (inAnyRange_eq_false_iff _ _).mp h r hr
      · exact ih _ y hy r (List.mem_append_left _ hr)

/-- Along the output, every later candidate's timestamp avoids the interval
claimed by every earlier accepted candidate. -/
theorem selectGo_pairwise (time_threshold : ℚ) :
    ∀ (l : List Candidate) (used : List TimeRange),
      (selectGo time_threshold used l).Pairwise
        (fun x y => ¬ inRange y.timestamp (claimedRange time_threshold x)) := by
  intro l
  induction l with
  | nil => intro used; simp [selectGo]
  | cons c rest ih =>
    intro used
    by_cases h : inAnyRange c.timestamp used = true
    · rw [selectGo_cons_hit h]; exact ih used
    · rw [Bool.not_eq_true] at h
      rw [selectGo_cons_free h]
      refine List.pairwise_cons.mpr ⟨?_, ih _⟩
      intro y hy
      exact selectGo_avoid time_threshold rest _ y hy
        (claimedRange time_threshold c)
        (List.mem_append_right _ (List.mem_singleton.mpr rfl))

theorem selectGo_sublist (time_threshold : ℚ) :
    ∀ (l : List Candidate) (used : List TimeRange),
      (selectGo time_threshold used l).Sublist l := by
  intro l
  induction l with
  | nil => intro used; simp [selectGo]
  | cons c rest ih =>
    intro used
    by_cases h : inAnyRange c.timestamp used = true
    · rw [selectGo_cons_hit h]
      exact (ih used).cons c
    · rw [Bool.not_eq_true] at h
      rw [selectGo_cons_free h]
      exact (ih _).cons₂ c

/-- Every input candidate is either returned, or its timestamp was inside a
range already claimed on entry, or inside the interval claimed by some
returned candidate. -/
theorem selectGo_complete (time_threshold : ℚ) :
    ∀ (l : List Candidate) (used : List TimeRange), ∀ c ∈ l,
      c ∈ selectGo time_threshold used l ∨
      (∃ r ∈ used, inRange c.timestamp r) ∨
      ∃ a ∈ selectGo time_threshold used l,
        inRange c.timestamp (claimedRange time_threshold a) := by
  intro l
  induction l with
  | nil => intro used c hc; simp at hc
  | cons c' rest ih =>
    intro used c hc
    by_cases h : inAnyRange c'.timestamp used = true
    · rw [selectGo_cons_hit h]
      rcases List.mem_cons.mp hc with rfl | hc
      · exact Or.inr (Or.inl ((inAnyRange_eq_true_iff _ _).mp h))
      · exact ih used c hc
    · rw [Bool.not_eq_true] at h
      rw [selectGo_cons_free h]
      rcases List.mem_cons.mp hc with rfl | hc
      · exact Or.inl (List.mem_cons_self _ _)
      · rcases ih (used ++ [claimedRange time_threshold c']) c hc with
          hmem | ⟨r, hr, hrin⟩ | ⟨a, ha, hain⟩
        · exact Or.inl (List.mem_cons_of_mem _ hmem)
        · rcases List.mem_append.mp hr with hr | hr
          · exact Or.inr (Or.inl ⟨r, hr, hrin⟩)
          · rw [List.mem_singleton.mp hr] at hrin
            exact Or.inr (Or.inr ⟨c', List.mem_cons_self _ _, hrin⟩)
        · exact Or.inr (Or.inr ⟨a, List.mem_cons_of_mem _ ha, hain⟩)

/-! ### Interval arithmetic for the claimed windows -/
/-- If `a`'s timestamp lies in `b`'s claimed interval and `b`'s own timestamp
does too, then `b`'s timestamp lies in `a`'s claimed interval. -/
theorem claimed_trans (thr : ℚ) (a b : Candidate)
    (ha : inRange a.timestamp (claimedRange thr b))
    (hb : inRange b.timestamp (claimedRange thr b)) :
    inRange b.timestamp (claimedRange thr a) := by
  simp only [inRange, claimedRange, max_le_iff] at *
  obtain ⟨⟨ha0, ha1⟩, ha2⟩ := ha
  obtain ⟨⟨hb0, _⟩, _⟩ := hb
  refine ⟨⟨hb0, by linarith⟩, by linarith⟩

/-- Two candidates that each avoid `a`'s claimed interval (with `a` avoiding
nothing about them) cannot both sit inside the claimed interval of a third
candidate `c` when `b` itself avoids `a`'s interval. -/
theorem claimed_separated (thr : ℚ) (a b c : Candidate)
    (hab : ¬ inRange b.timestamp (claimedRange thr a))
    (hac : ¬ inRange c.timestamp (claimedRange thr a))
    (ha : inRange a.timestamp (claimedRange thr c))
    (hb : inRange b.timestamp (claimedRange thr c)) : False := by
  simp only [inRange, claimedRange, max_le_iff, not_and, not_le] at *
  obtain ⟨⟨ha0, ha1⟩, ha2⟩ := ha
  obtain ⟨⟨hb0, hb1⟩, hb2⟩ := hb
  rcases le_or_lt 0 c.timestamp with hc0 | hc0
  · have := hac ⟨hc0, by linarith⟩
    linarith
  · have := hab ⟨hb0, by linarith⟩
    linarith

/-! ### The claims about the selector -/
/-- C1.  The diverse-candidate selection of `_finalize_smile_results`
(routers.py lines 173-174 and 35-66): it sorts the full candidate set by
`smile_score` descending (a permutation, sorted, stable on ties), walks the
sorted list in order, accepts a candidate iff its timestamp lies in no
previously claimed closed interval, claims
`[max(0, t - threshold/2), t + threshold/2]` on acceptance, and maps empty
input to empty output. -/
theorem C1_sort_then_greedy_walk :
    (∀ cs : List Candidate, (sortByScoreDesc cs).Perm cs) ∧
    (∀ cs : List Candidate, ScoreSortedDesc (sortByScoreDesc cs)) ∧
    (∀ (cs : List Candidate) (s : ℚ),
        (sortByScoreDesc cs).filter (fun d => decide (d.smile_score = s)) =
          cs.filter (fun d => decide (d.smile_score = s))) ∧
    (∀ (thr : ℚ) (cs : List Candidate),
        top_smiles cs thr = selectGo thr [] (sortByScoreDesc cs)) ∧
    (∀ (thr : ℚ) (used : List TimeRange) (c : Candidate)
        (rest : List Candidate),
        (∀ r ∈ used, ¬ inRange c.timestamp r) →
          selectGo thr used (c :: rest) =
            c :: selectGo thr (used ++ [claimedRange thr c]) rest) ∧
    (∀ (thr : ℚ) (used : List TimeRange) (c : Candidate)
        (rest : List Candidate) (r : TimeRange),
        r ∈ used → inRange c.timestamp r →
          selectGo thr used (c :: rest) = selectGo thr used rest) ∧
    (∀ thr : ℚ, top_smiles [] thr = []) := by
  refine ⟨sortByScoreDesc_perm, sortByScoreDesc_sorted, sortByScoreDesc_stable,
    fun thr cs => rfl, ?_, ?_, fun thr => rfl⟩
  · intro thr used c rest h
    exact selectGo_cons_free ((inAnyRange_eq_false_iff _ _).mpr h)
  · intro thr used c rest r hr hin
    exact selectGo_cons_hit ((inAnyRange_eq_true_iff _ _).mpr ⟨r, hr, hin⟩)

/-- C2.  For thresholds `≥ 0`, the selection never returns two distinct
candidates whose timestamps both lie inside one single claimed interval. -/
theorem C2_no_two_in_one_claimed_interval (time_threshold : ℚ)
    (hthr : 0 ≤ time_threshold) (candidates : List Candidate) :
    (select_diverse_candidates candidates time_threshold).Pairwise
      (fun a b => ∀ c ∈ select_diverse_candidates candidates time_threshold,
        ¬ (inRange a.timestamp (claimedRange time_threshold c) ∧
           inRange b.timestamp (claimedRange time_threshold c))) := by
  have hP : (select_diverse_candidates candidates time_threshold).Pairwise
      (fun x y => ¬ inRange y.timestamp (claimedRange time_threshold x)) :=
    selectGo_pairwise time_threshold candidates []
  rw [List.pairwise_iff_get] at hP
  rw [List.pairwise_iff_get]
  intro i j hij c hc hcontra
  obtain ⟨h1, h2⟩ := hcontra
  obtain ⟨k, hk⟩ := List.mem_iff_get.mp hc
  subst hk
  rcases Nat.lt_trichotomy k.val i.val with hki | hki | hki
  · exact hP k i hki h1
  · have hk_eq : k = i := Fin.ext hki
    exact hP i j hij (hk_eq ▸ h2)
  · rcases Nat.lt_trichotomy k.val j.val with hkj | hkj | hkj
    · exact hP k j hkj h2
    · have hk_eq : k = j := Fin.ext hkj
      rw [hk_eq] at h1 h2
      exact hP i j hij
        (claimed_trans time_threshold _ _ h1 h2)
    · exact claimed_separated time_threshold _ _ _
        (hP i j hij) (hP i k (lt_trans hij hkj)) h1 h2

/-- Witness for C2 at `time_threshold = 1` on a concrete two-candidate list. -/
theorem C2_no_two_in_one_claimed_interval_witness :
    (0 : ℚ) ≤ 1 ∧
    (select_diverse_candidates [lowScoreEarly, highScoreLate] 1).Pairwise
      (fun a b => ∀ c ∈ select_diverse_candidates [lowScoreEarly, highScoreLate] 1,
        ¬ (inRange a.timestamp (claimedRange 1 c) ∧
           inRange b.timestamp (claimedRange 1 c))) :=
  ⟨by norm_num,
   C2_no_two_in_one_claimed_interval 1 (by norm_num) [lowScoreEarly, highScoreLate]⟩

/-- C3.  The selection output is a subsequence of the score-descending-sorted
input, and every rejected candidate is rejected only because its timestamp
lies in the claimed interval of some returned candidate. -/
theorem C3_subsequence_and_rejections_justified (cs : List Candidate)
    (thr : ℚ) :
    (top_smiles cs thr).Sublist (sortByScoreDesc cs) ∧
    ∀ c ∈ sortByScoreDesc cs,
      c ∈ top_smiles cs thr ∨
      ∃ a ∈ top_smiles cs thr, inRange c.timestamp (claimedRange thr a) := by
  constructor
  · exact selectGo_sublist thr _ []
  · intro c hc
    rcases selectGo_complete thr _ [] c hc with h | ⟨r, hr, _⟩ | h
    · exact Or.inl h
    · simp at hr
    · exact Or.inr h

/-- C10.  `select_diverse_candidates` itself never reorders: its output is a
subsequence of the input in the input's original order, and on an input that
is not score-sorted it performs no sorting (the lower-scored candidate stays
first). -/
theorem C10_selection_preserves_input_order :
    (∀ (cs : List Candidate) (thr : ℚ),
        (select_diverse_candidates cs thr).Sublist cs) ∧
    select_diverse_candidates [lowScoreEarly, highScoreLate] 1 =
      [lowScoreEarly, highScoreLate] := by
  constructor
  · intro cs thr
    exact selectGo_sublist thr cs []
  · rw [select_diverse_candidates,
      @selectGo_cons_free 1 [] lowScoreEarly [highScoreLate] rfl,
      selectGo_cons_free ?far, selectGo]
    case far =>
      rw [inAnyRange_eq_false_iff]
      intro r hr
      simp only [List.nil_append, List.mem_singleton] at hr
      subst hr
      simp only [inRange, claimedRange, lowScoreEarly, highScoreLate, not_and,
        not_le, max_le_iff]
      intro h
      norm_num

/-! ### Claims about the frame sampler and the image builder -/
/-- C6.  The frame-skip computation: 1 when the interval is 0, otherwise
`max(1, floor(fps * I))`, always positive; with the three concrete values
from the spec, including the fps-0-substituted-to-30 case. -/
theorem C6_frame_skip_spec (fps interval : ℚ) (hfps : 0 < fps)
    (hI : 0 ≤ interval) :
    (_compute_frame_skip fps interval =
      if interval = 0 then 1 else max 1 ⌊fps * interval⌋) ∧
    0 < _compute_frame_skip fps interval ∧
    _compute_frame_skip 30 0 = 1 ∧
    _compute_frame_skip 30 2 = 60 ∧
    effective_fps 0 = 30 ∧
    _compute_frame_skip (effective_fps 0) 1 = 30 := by
  have hmax : max interval 0 = interval := max_eq_left hI
  have hpy : pyInt (fps * interval) = ⌊fps * interval⌋ := by
    rw [pyInt, if_pos (mul_nonneg hfps.le hI)]
  have hmain : _compute_frame_skip fps interval =
      if interval = 0 then 1 else max 1 ⌊fps * interval⌋ := by
    rw [_compute_frame_skip]
    simp only [hmax, hpy]
  refine ⟨hmain, ?_, ?_, ?_, ?_, ?_⟩
  · rw [hmain]
    by_cases h : interval = 0
    · simp [h]
    · rw [if_neg h]
      exact lt_of_lt_of_le Int.one_pos (le_max_left _ _)
  · norm_num [_compute_frame_skip]
  · norm_num [_compute_frame_skip, pyInt]
  · norm_num [effective_fps]
  · norm_num [_compute_frame_skip, effective_fps, pyInt]

/-- Witness for C6 at `fps = 30`, `interval = 2`. -/
theorem C6_frame_skip_spec_witness :
    (0 : ℚ) < 30 ∧ (0 : ℚ) ≤ 2 ∧
    ((_compute_frame_skip 30 2 =
        if (2 : ℚ) = 0 then 1 else max 1 ⌊(30 : ℚ) * 2⌋) ∧
      0 < _compute_frame_skip 30 2 ∧
      _compute_frame_skip 30 0 = 1 ∧
      _compute_frame_skip 30 2 = 60 ∧
      effective_fps 0 = 30 ∧
      _compute_frame_skip (effective_fps 0) 1 = 30) :=
  ⟨by norm_num, by norm_num,
    C6_frame_skip_spec 30 2 (by norm_num) (by norm_num)⟩

/-- C5 counterexample.  On a missing source image the builder's error code
is `"ALL_FALLBACKS_FAILED"`, not `"IMAGE_VALIDATION_ERROR"`: no
`ImageValidationError` is raised (that class is never raised anywhere in the
code; validation failure instead routes into the fallback chain). -/
theorem C5_missing_file_error_code_counterexample :
    errCode (create_task_result_with_fallback [] "missing.jpg" "0.00s" 1) =
      some "ALL_FALLBACKS_FAILED" ∧
    errCode (create_task_result_with_fallback [] "missing.jpg" "0.00s" 1) ≠
      some "IMAGE_VALIDATION_ERROR" := by
  constructor
  · rfl
  · intro h
    rw [show errCode (create_task_result_with_fallback [] "missing.jpg" "0.00s" 1)
        = some "ALL_FALLBACKS_FAILED" from rfl] at h
    simp at h

/-- C5 amended.  A source image failing validation makes the builder reject
the base64 path (so no encoding is attempted) and fail with the aggregated
`ImageProcessingError` whose `error_code` is `"ALL_FALLBACKS_FAILED"`. -/
theorem C5_invalid_image_fails_via_fallback_chain (fs : FileSys)
    (image_path timestamp : String) (score : ℚ)
    (h : validate_image_file fs image_path = false) :
    (should_use_base64 fs image_path false).use_base64 = false ∧
    (should_use_base64 fs image_path false).reason = "invalid_file" ∧
    create_task_result_with_fallback fs image_path timestamp score =
      .error (all_fallbacks_failed image_path
        ["Base64 not suitable: invalid_file"]) ∧
    (all_fallbacks_failed image_path
        ["Base64 not suitable: invalid_file"]).error_code =
      "ALL_FALLBACKS_FAILED" := by
  have hd : should_use_base64 fs image_path false =
      { use_base64 := false, reason := "invalid_file", file_size_mb := 0,
        error := some ("Image file " ++ image_path ++
          " is not valid or accessible") } := by
    rw [should_use_base64, h]
    simp
  refine ⟨by rw [hd], by rw [hd], ?_, rfl⟩
  rw [create_task_result_with_fallback, hd]
  simp

/-- Witness for the amended C5, on a missing file. -/
theorem C5_invalid_image_fails_via_fallback_chain_witness :
    validate_image_file [] "absent.png" = false ∧
    ((should_use_base64 [] "absent.png" false).use_base64 = false ∧
      (should_use_base64 [] "absent.png" false).reason = "invalid_file" ∧
      create_task_result_with_fallback [] "absent.png" "1.00s" (1/2) =
        .error (all_fallbacks_failed "absent.png"
          ["Base64 not suitable: invalid_file"]) ∧
      (all_fallbacks_failed "absent.png"
          ["Base64 not suitable: invalid_file"]).error_code =
        "ALL_FALLBACKS_FAILED") :=
  ⟨rfl, C5_invalid_image_fails_via_fallback_chain [] "absent.png" "1.00s"
    (1/2) rfl⟩

/-- C9.  One candidate's failure is isolated: a candidate whose result
construction fails is dropped and the loop continues with the remaining
candidates unchanged, while a successful candidate contributes exactly its
result at its position. -/
theorem C9_candidate_failure_is_isolated :
    (∀ (task_id : String) (fs : FileSys) (c : Candidate)
        (rest : List Candidate) (index : Nat),
        (_create_task_result fs task_id c index).1 = none →
          build_final_results task_id fs (c :: rest) index =
            build_final_results task_id
              (_create_task_result fs task_id c index).2 rest (index + 1)) ∧
    (∀ (task_id : String) (fs : FileSys) (c : Candidate)
        (rest : List Candidate) (index : Nat) (r : TaskResult),
        (_create_task_result fs task_id c index).1 = some r →
          (build_final_results task_id fs (c :: rest) index).1 =
            r :: (build_final_results task_id
              (_create_task_result fs task_id c index).2 rest (index + 1)).1) := by
  constructor
  · intro task_id fs c rest index h
    rcases hp : _create_task_result fs task_id c index with ⟨o, fs1⟩
    rw [hp] at h
    simp only at h
    subst h
    simp [build_final_results, hp]
  · intro task_id fs c rest index r h
    rcases hp : _create_task_result fs task_id c index with ⟨o, fs1⟩
    rw [hp] at h
    simp only at h
    subst h
    simp [build_final_results, hp]

theorem format2f_four : format2f 4 = "4.00" := by
  have h : pyRoundHalfEven ((4 : ℚ) * 100) = 400 := by
    rw [pyRoundHalfEven]
    norm_num
  rw [format2f, h]
  rfl

theorem good_create_eval :
    (_create_task_result [] "tid" goodCandidate 0).1 = some goodResult := by
  have hval : validate_image_file [("temp_tid_scene_1.jpg", [77])]
      "temp_tid_scene_1.jpg" = true := rfl
  have hlook : alookup "temp_tid_scene_1.jpg"
      [("temp_tid_scene_1.jpg", [77])] = some [77] := rfl
  have hsize : ¬ MAX_BASE64_IMAGE_SIZE_MB < get_image_size_mb [77] := by
    rw [MAX_BASE64_IMAGE_SIZE_MB, get_image_size_mb]
    norm_num
  have hdec : should_use_base64 [("temp_tid_scene_1.jpg", [77])]
      "temp_tid_scene_1.jpg" false =
      { use_base64 := true, reason := "size_within_limits",
        file_size_mb := get_image_size_mb [77], error := none } := by
    rw [should_use_base64, hval, hlook]
    simp [hsize]
  have henc : encode_image_to_base64 [("temp_tid_scene_1.jpg", [77])]
      "temp_tid_scene_1.jpg" = .ok "data:image/jpeg;base64,TQ==" := rfl
  have hbuild : create_task_result_with_fallback
      [("temp_tid_scene_1.jpg", [77])] "temp_tid_scene_1.jpg"
      (format2f goodCandidate.timestamp ++ "s") goodCandidate.smile_score =
      .ok goodResult := by
    rw [create_task_result_with_fallback, hdec, henc]
    simp [goodResult, goodCandidate, format2f_four]
  rw [_create_task_result]
  have hfs : fsWrite [] (temp_image_path "tid" (scene_filename 0))
      goodCandidate.frame = [("temp_tid_scene_1.jpg", [77])] := rfl
  have htemp : temp_image_path "tid" (scene_filename 0) =
      "temp_tid_scene_1.jpg" := rfl
  rw [hfs, htemp, hbuild]

/-- Witness for C9: the empty-frame candidate fails and is dropped while
the loop continues; the good candidate contributes exactly its result. -/
theorem C9_candidate_failure_is_isolated_witness :
    ((_create_task_result [] "tid" badCandidate 0).1 = none ∧
      build_final_results "tid" [] [badCandidate, goodCandidate] 0 =
        build_final_results "tid"
          (_create_task_result [] "tid" badCandidate 0).2 [goodCandidate] 1) ∧
    ((_create_task_result [] "tid" goodCandidate 0).1 = some goodResult ∧
      (build_final_results "tid" [] [goodCandidate] 0).1 =
        goodResult ::
          (build_final_results "tid"
            (_create_task_result [] "tid" goodCandidate 0).2 [] 1).1) :=
  ⟨⟨rfl, C9_candidate_failure_is_isolated.1 "tid" [] badCandidate
      [goodCandidate] 0 rfl⟩,
   ⟨good_create_eval, C9_candidate_failure_is_isolated.2 "tid" []
      goodCandidate [] 0 goodResult good_create_eval⟩⟩

/-! ### Facts about the repository -/
theorem coerceField_ne_taskNotFound (kv : String × WVal) (s : String) :
    coerceField kv ≠ .error (.taskNotFound s) := by
  obtain ⟨k, v⟩ := kv
  cases v <;> simp only [coerceField] <;> split_ifs <;> simp

theorem coerceFields_ne_taskNotFound (l : List (String × WVal))
    (s : String) : coerceFields l ≠ .error (.taskNotFound s) := by
  induction l with
  | nil => simp [coerceFields]
  | cons a l ih =>
    rw [coerceFields]
    cases ha : coerceField a with
    | error e =>
      intro hcontra
      simp only [] at hcontra
      injection hcontra with he
      exact coerceField_ne_taskNotFound a s (by rw [ha, he])
    | ok pv =>
      cases hl : coerceFields l with
      | error e =>
        intro hcontra
        simp only [] at hcontra
        exact ih (hl.trans hcontra)
      | ok pvs =>
        intro hcontra
        simp only [] at hcontra
        exact Except.noConfusion hcontra

/-- C7.  On an id whose record does not exist (never created, deleted, or
expired -- all of which make the key dead), `update`, `append_results` and
`get` each fail with `TaskNotFoundError`; when a record exists, none of
them raises `TaskNotFoundError`. -/
theorem C7_repository_not_found (st : RedisState) (task_id : String) :
    (st.live (task_key task_id) = none →
      (∀ payload, update_task st task_id payload =
        .error (.taskNotFound task_id)) ∧
      (∀ rs, append_task_results st task_id rs =
        .error (.taskNotFound task_id)) ∧
      get_task st task_id = .error (.taskNotFound task_id)) ∧
    (∀ h, st.live (task_key task_id) = some h → h ≠ [] →
      (∀ payload s, update_task st task_id payload ≠
        .error (.taskNotFound s)) ∧
      (∀ rs s, append_task_results st task_id rs ≠
        .error (.taskNotFound s)) ∧
      (∀ s, get_task st task_id ≠ .error (.taskNotFound s))) := by
  constructor
  · intro hnone
    have hex : st.existsKey (task_key task_id) = false := by
      rw [RedisState.existsKey, hnone]
      rfl
    have hget : st.hgetall (task_key task_id) = [] := by
      rw [RedisState.hgetall, hnone]
      rfl
    exact ⟨fun payload => by simp [update_task, hex],
      fun rs => by simp [append_task_results, hex],
      by simp [get_task, hget]⟩
  · intro h hsome hne
    have hex : st.existsKey (task_key task_id) = true := by
      rw [RedisState.existsKey, hsome]
      rfl
    have hget : st.hgetall (task_key task_id) = h := by
      rw [RedisState.hgetall, hsome]
      rfl
    refine ⟨fun payload s => by simp [update_task, hex],
      fun rs s => by simp [append_task_results, hex], fun s => ?_⟩
    rcases h with _ | ⟨a, t⟩
    · exact absurd rfl hne
    · simp only [get_task, hget, List.isEmpty_cons, if_neg]
      exact coerceFields_ne_taskNotFound (a :: t) s

/-- Witness for C7: the missing id `"gone"` fails all three operations with
`TaskNotFoundError`; the live id `"w7"` fails none of them with it. -/
theorem C7_repository_not_found_witness :
    update_task c7State "gone" [("progress", WVal.int 1)] =
      .error (.taskNotFound "gone") ∧
    append_task_results c7State "gone" [] =
      .error (.taskNotFound "gone") ∧
    get_task c7State "gone" = .error (.taskNotFound "gone") ∧
    update_task c7State "w7" [("progress", WVal.int 1)] ≠
      .error (.taskNotFound "w7") ∧
    append_task_results c7State "w7" [] ≠
      .error (.taskNotFound "w7") ∧
    get_task c7State "w7" ≠ .error (.taskNotFound "w7") := by
  have A := (C7_repository_not_found c7State "gone").1 rfl
  have B := (C7_repository_not_found c7State "w7").2
    [("status", WVal.str "processing")] rfl (by simp)
  exact ⟨A.1 _, A.2.1 _, A.2.2, B.1 _ _, B.2.1 _ _, B.2.2 _⟩

theorem alookup_filter_append {β : Type} (l : List (String × β))
    (k : String) (v : β) :
    alookup k ((l.filter fun e => decide (e.1 ≠ k)) ++ [(k, v)]) = some v := by
  induction l with
  | nil => simp [alookup]
  | cons a l ih =>
    obtain ⟨a1, a2⟩ := a
    by_cases h : a1 = k
    · simpa [List.filter_cons, h] using ih
    · simpa [List.filter_cons, h, alookup] using ih

theorem setEntry_filter_append (l : List (String × RedisEntry)) (k : String)
    (e e1 : RedisEntry) :
    setEntry ((l.filter fun x => decide (x.1 ≠ k)) ++ [(k, e)]) k e1 =
      (l.filter fun x => decide (x.1 ≠ k)) ++ [(k, e1)] := by
  induction l with
  | nil => simp [setEntry]
  | cons a l ih =>
    obtain ⟨a1, a2⟩ := a
    by_cases h : a1 = k
    · simpa [List.filter_cons, h] using ih
    · simpa [List.filter_cons, h, setEntry] using ih

/-- Creating a task on a fresh id: the record carries the merged fields in
order and the TTL expiry, and nothing else changes. -/
theorem create_task_fresh (st : RedisState) (task_id : String)
    (payload : List (String × WVal))
    (hfresh : alookup (task_key task_id) st.entries = none) :
    create_task st task_id payload =
      ⟨(st.entries.filter fun e => decide (e.1 ≠ task_key task_id)) ++
        [(task_key task_id,
          ⟨hashSetMany [] (("status", WVal.str "processing") :: payload),
            some (st.now + REDIS_TASK_TTL_SECONDS)⟩)],
        st.now⟩ := by
  have hlive : st.live (task_key task_id) = none := by
    rw [RedisState.live, hfresh]
  rw [create_task]
  simp only [RedisState.hset, hlive]
  have halk1 : alookup (task_key task_id)
      ((st.entries.filter fun e => decide (e.1 ≠ task_key task_id)) ++
        [(task_key task_id,
          ⟨hashSetMany [] (("status", WVal.str "processing") :: payload),
            none⟩)]) =
      some ⟨hashSetMany [] (("status", WVal.str "processing") :: payload),
        none⟩ :=
    alookup_filter_append st.entries (task_key task_id) _
  simp only [RedisState.expire, RedisState.live, halk1]
  rw [setEntry_filter_append]

theorem live_of_entry (st : RedisState) (key : String) (h : RedisHash)
    (t : ℚ) (halk : alookup key st.entries = some ⟨h, some t⟩)
    (hnow : st.now < t) : st.live key = some h := by
  rw [RedisState.live, halk]
  simp only []
  rw [if_pos hnow]

theorem get_task_of_live (st : RedisState) (task_id : String) (h : RedisHash)
    (hlive : st.live (task_key task_id) = some h) (hne : h ≠ []) :
    get_task st task_id = coerceFields h := by
  have hget : st.hgetall (task_key task_id) = h := by
    rw [RedisState.hgetall, hlive]
    rfl
  rw [get_task]
  simp only [hget]
  rw [if_neg]
  simp [hne]

theorem hset_of_live (st : RedisState) (key : String) (h : RedisHash)
    (e : RedisEntry) (mapping : List (String × WVal))
    (halk : alookup key st.entries = some e)
    (hlive : st.live key = some h) :
    st.hset key mapping =
      ⟨setEntry st.entries key ⟨hashSetMany h mapping, e.expire_at⟩,
        st.now⟩ := by
  simp only [RedisState.hset, hlive, halk]

theorem append_task_results_of_live (st : RedisState) (task_id : String)
    (h : RedisHash) (e : RedisEntry) (rs : List TaskResult)
    (halk : alookup (task_key task_id) st.entries = some e)
    (hlive : st.live (task_key task_id) = some h) :
    append_task_results st task_id rs =
      .ok ⟨setEntry st.entries (task_key task_id)
        ⟨hashSetMany h [("results", WVal.results rs)], e.expire_at⟩,
        st.now⟩ := by
  have hex : st.existsKey (task_key task_id) = true := by
    rw [RedisState.existsKey, hlive]
    rfl
  rw [append_task_results]
  simp only [hex, if_true]
  rw [hset_of_live st _ h e _ halk hlive]

/-- C8.  Creating a task (implicit `status="processing"` merged with the
route's payload) and getting it before expiry round-trips every field with
its read-side type: `progress` as an integer, `created_at` as a float, and,
once appended, `results` as the structured list rather than its serialized
string. -/
theorem C8_create_get_roundtrip (st : RedisState) (task_id filename : String)
    (p : Int) (t δ : ℚ) (rs : List TaskResult) (st1 st2 : RedisState)
    (hfresh : alookup (task_key task_id) st.entries = none)
    (hst1 : st1 = create_task st task_id
      [("filename", WVal.str filename), ("progress", WVal.int p),
       ("created_at", WVal.num t)])
    (hst2 : st2 = ⟨st1.entries, st1.now + δ⟩)
    (hδ0 : 0 ≤ δ) (hδ1 : δ < REDIS_TASK_TTL_SECONDS) :
    get_task st2 task_id =
      .ok [("status", PVal.str "processing"),
           ("filename", PVal.str filename),
           ("progress", PVal.int p), ("created_at", PVal.num t)] ∧
    exceptIsOk (append_task_results st2 task_id rs) = true ∧
    (∀ st3, append_task_results st2 task_id rs = .ok st3 →
      get_task st3 task_id =
        .ok [("status", PVal.str "processing"),
             ("filename", PVal.str filename),
             ("progress", PVal.int p), ("created_at", PVal.num t),
             ("results", PVal.results rs)]) := by
  rw [create_task_fresh st task_id _ hfresh] at hst1
  rw [show hashSetMany [] (("status", WVal.str "processing") ::
      [("filename", WVal.str filename), ("progress", WVal.int p),
       ("created_at", WVal.num t)]) =
      [("status", WVal.str "processing"), ("filename", WVal.str filename),
       ("progress", WVal.int p), ("created_at", WVal.num t)] from rfl]
    at hst1
  subst hst1
  subst hst2
  have hlt : st.now + δ < st.now + REDIS_TASK_TTL_SECONDS := by linarith
  have halk : alookup (task_key task_id)
      ((st.entries.filter fun e => decide (e.1 ≠ task_key task_id)) ++
        [(task_key task_id,
          ⟨[("status", WVal.str "processing"),
            ("filename", WVal.str filename), ("progress", WVal.int p),
            ("created_at", WVal.num t)],
            some (st.now + REDIS_TASK_TTL_SECONDS)⟩)]) =
      some ⟨[("status", WVal.str "processing"),
        ("filename", WVal.str filename), ("progress", WVal.int p),
        ("created_at", WVal.num t)],
        some (st.now + REDIS_TASK_TTL_SECONDS)⟩ :=
    alookup_filter_append st.entries (task_key task_id) _
  have hlive : RedisState.live
      ⟨(st.entries.filter fun e => decide (e.1 ≠ task_key task_id)) ++
        [(task_key task_id,
          ⟨[("status", WVal.str "processing"),
            ("filename", WVal.str filename), ("progress", WVal.int p),
            ("created_at", WVal.num t)],
            some (st.now + REDIS_TASK_TTL_SECONDS)⟩)], st.now + δ⟩
      (task_key task_id) =
      some [("status", WVal.str "processing"),
        ("filename", WVal.str filename), ("progress", WVal.int p),
        ("created_at", WVal.num t)] :=
    live_of_entry _ _ _ _ halk hlt
  have hget1 := get_task_of_live _ task_id _ hlive (by simp)
  have happend := append_task_results_of_live _ task_id _ _ rs halk hlive
  rw [setEntry_filter_append] at happend
  rw [show hashSetMany
      [("status", WVal.str "processing"), ("filename", WVal.str filename),
       ("progress", WVal.int p), ("created_at", WVal.num t)]
      [("results", WVal.results rs)] =
      [("status", WVal.str "processing"), ("filename", WVal.str filename),
       ("progress", WVal.int p), ("created_at", WVal.num t),
       ("results", WVal.results rs)] from rfl] at happend
  refine ⟨?_, ?_, ?_⟩
  · rw [hget1]
    rfl
  · rw [happend]
    rfl
  · intro st3 heq
    rw [happend] at heq
    injection heq with heq1
    subst heq1
    have halk2 : alookup (task_key task_id)
        ((st.entries.filter fun e => decide (e.1 ≠ task_key task_id)) ++
          [(task_key task_id,
            ⟨[("status", WVal.str "processing"),
              ("filename", WVal.str filename), ("progress", WVal.int p),
              ("created_at", WVal.num t), ("results", WVal.results rs)],
              some (st.now + REDIS_TASK_TTL_SECONDS)⟩)]) =
        some ⟨[("status", WVal.str "processing"),
          ("filename", WVal.str filename), ("progress", WVal.int p),
          ("created_at", WVal.num t), ("results", WVal.results rs)],
          some (st.now + REDIS_TASK_TTL_SECONDS)⟩ :=
      alookup_filter_append st.entries (task_key task_id) _
    have hlive2 := live_of_entry
      ⟨(st.entries.filter fun e => decide (e.1 ≠ task_key task_id)) ++
        [(task_key task_id,
          ⟨[("status", WVal.str "processing"),
            ("filename", WVal.str filename), ("progress", WVal.int p),
            ("created_at", WVal.num t), ("results", WVal.results rs)],
            some (st.now + REDIS_TASK_TTL_SECONDS)⟩)], st.now + δ⟩
      (task_key task_id) _ _ halk2 hlt
    have hget2 := get_task_of_live _ task_id _ hlive2 (by simp)
    rw [hget2]
    rfl

/-- Witness for C8 on an empty store, id `"t8"`, zero time passed. -/
theorem C8_create_get_roundtrip_witness :
    get_task c8St2 "t8" =
      .ok [("status", PVal.str "processing"),
           ("filename", PVal.str "a.mp4"),
           ("progress", PVal.int 0), ("created_at", PVal.num 0)] ∧
    exceptIsOk (append_task_results c8St2 "t8" []) = true := by
  have H := C8_create_get_roundtrip ⟨[], 0⟩ "t8" "a.mp4" 0 0 0 [] c8St1 c8St2
    rfl rfl rfl le_rfl (by norm_num [REDIS_TASK_TTL_SECONDS])
  exact ⟨H.1, H.2.1⟩

theorem video_loop_succ (task_id : String) (total_frames frame_skip : Int)
    (extract : Int → List Candidate) (st : RedisState) (n : Nat)
    (frame_number : Int) (acc : List Candidate) :
    video_loop task_id total_frames frame_skip extract st (n + 1)
      frame_number acc =
      (let step := _update_task_progress st task_id frame_number total_frames
       if step.2 then
         video_loop task_id total_frames frame_skip extract step.1 n
           (frame_number + 1)
           (if frame_number % frame_skip = 0 then
             acc ++ extract frame_number
            else acc)
       else (step.1, acc, false)) := rfl

/-- C4 (code-bug evaluation).  A 2-frame video with zero detected faces:
the run terminates with `status = "complete"` and `results = []`, but the
empty-candidate branch of `_finalize_smile_results` never writes
`progress = 100` -- the task is left at the last per-frame value
`int(1/2*100) = 50`, contradicting the claimed `progress = 100`. -/
theorem C4_zero_faces_leaves_progress_behind :
    (process_video_task c4Created [] "vid" 2 2 30 0 fun _ => []).1 =
      c4Final ∧
    get_task c4Final "vid" =
      .ok [("status", PVal.str "complete"), ("filename", PVal.str "v.mp4"),
           ("progress", PVal.int 50), ("created_at", PVal.num 0),
           ("results", PVal.results [])] ∧
    PVal.int 50 ≠ PVal.int 100 := by
  have hliveH : ∀ h : RedisHash,
      RedisState.live ⟨c4Entries h, 0⟩ (task_key "vid") = some h := by
    intro h
    refine live_of_entry _ _ _ ((0 : ℚ) + REDIS_TASK_TTL_SECONDS) rfl ?_
    norm_num [REDIS_TASK_TTL_SECONDS]
  have hupd : ∀ (h : RedisHash) (payload : List (String × WVal)),
      update_task ⟨c4Entries h, 0⟩ "vid" payload =
        .ok ⟨c4Entries (hashSetMany h payload), 0⟩ := by
    intro h payload
    have hex : RedisState.existsKey ⟨c4Entries h, 0⟩ (task_key "vid") =
        true := by
      rw [RedisState.existsKey, hliveH h]
      rfl
    rw [update_task]
    simp only [hex, if_true]
    rw [hset_of_live ⟨c4Entries h, 0⟩ (task_key "vid") h
      ⟨h, some ((0 : ℚ) + REDIS_TASK_TTL_SECONDS)⟩ payload rfl (hliveH h)]
    rfl
  have happ : ∀ (h : RedisHash) (rs : List TaskResult),
      append_task_results ⟨c4Entries h, 0⟩ "vid" rs =
        .ok ⟨c4Entries (hashSetMany h [("results", WVal.results rs)]), 0⟩ := by
    intro h rs
    rw [append_task_results_of_live ⟨c4Entries h, 0⟩ "vid" h
      ⟨h, some ((0 : ℚ) + REDIS_TASK_TTL_SECONDS)⟩ rs rfl (hliveH h)]
    rfl
  have hprog0 : pyInt (((0 : Int) : ℚ) / ((2 : Int) : ℚ) * 100) = 0 := by
    have hq : ((0 : Int) : ℚ) / ((2 : Int) : ℚ) * 100 = 0 := by norm_num
    rw [pyInt, hq]
    norm_num
  have hprog1 : pyInt (((1 : Int) : ℚ) / ((2 : Int) : ℚ) * 100) = 50 := by
    have hq : ((1 : Int) : ℚ) / ((2 : Int) : ℚ) * 100 = 50 := by norm_num
    rw [pyInt, hq]
    norm_num
  have hstep0 : _update_task_progress ⟨c4Entries (c4Hash 0), 0⟩ "vid" 0 2 =
      (⟨c4Entries (c4Hash 0), 0⟩, true) := by
    rw [_update_task_progress, if_neg (by decide : ¬ (2 : Int) ≤ 0)]
    simp only [hprog0]
    rw [hupd (c4Hash 0) [("progress", WVal.int 0)]]
    rfl
  have hstep1 : _update_task_progress ⟨c4Entries (c4Hash 0), 0⟩ "vid" 1 2 =
      (⟨c4Entries (c4Hash 50), 0⟩, true) := by
    rw [_update_task_progress, if_neg (by decide : ¬ (2 : Int) ≤ 0)]
    simp only [hprog1]
    rw [hupd (c4Hash 0) [("progress", WVal.int 50)]]
    rfl
  have heff : effective_fps 30 = 30 := by
    rw [effective_fps, if_neg (by norm_num : ¬ (30 : ℚ) = 0)]
  have hskip : _compute_frame_skip 30 0 = 1 := by
    norm_num [_compute_frame_skip]
  refine ⟨?_, ?_, by decide⟩
  · rw [process_video_task]
    simp only [heff, hskip]
    rw [show c4Created = ⟨c4Entries (c4Hash 0), 0⟩ from rfl]
    rw [show (2 : Nat) = 1 + 1 from rfl, video_loop_succ]
    simp only [hstep0]
    norm_num
    rw [video_loop_succ]
    simp only [hstep1]
    norm_num
    rw [show video_loop "vid" 2 1 (fun _ => []) ⟨c4Entries (c4Hash 50), 0⟩ 0
        2 [] = (⟨c4Entries (c4Hash 50), 0⟩, [], true) from rfl]
    simp only []
    rw [_finalize_smile_results]
    simp only [List.isEmpty_nil, if_true]
    rw [happ (c4Hash 50) []]
    simp only []
    rw [hupd _ [("status", WVal.str "complete")]]
    rfl
  · rw [get_task_of_live c4Final "vid" c4FinalHash (hliveH c4FinalHash)
      (by simp [c4FinalHash])]
    rfl

end NikoClip

